import Mathlib

/-!
Verification of the timeline-reconstruction core of the OpenAI run viewer
(`src/artifacts/index.jsx`).  The JavaScript component is shallowly embedded:
millisecond timestamps are modelled as `Int`, a nullable JavaScript number as
`Option Int` (with `none` for `null`), and JavaScript's coercions are made
explicit (`jsNum` for ToNumber on `null`, truthiness tests spelled out as
zero/emptiness tests).
-/

/-- ToNumber coercion JavaScript applies to a nullable number used in
arithmetic or an ordering comparison: `null` coerces to `0`. -/
def jsNum (o : Option Int) : Int := o.getD 0

/-- JavaScript truthiness of a nullable number: `null` and `0` are falsy. -/
def jsTruthy (o : Option Int) : Bool :=
  match o with
  | none => false
  | some v => v != 0

/-- JavaScript `step.type || 'Unknown'` (index.jsx line 233): `null`,
`undefined` and the empty string are falsy. -/
def jsTypeName (t : Option String) : String :=
  match t with
  | none => "Unknown"
  | some s => if s = "" then "Unknown" else s

/-- One tenth-of-a-second digit rendering of `(ms / 1000).toFixed(1)` for an
integer `ms` (index.jsx line 31), with the tie at a half tenth rounded up as
an exact rational; JavaScript's double rounding agrees except on midpoints
that are not exactly representable in binary. -/
def secondsOneDecimal (ms : Int) : String :=
  let d := (ms + 50) / 100
  toString (d / 10) ++ "." ++ toString (d % 10)

/-- `formatDuration` (index.jsx lines 17-40).  The argument is the JavaScript
number `ms`, with `none` standing for `null`/`NaN` (both yield "N/A"); the
leading `!ms || isNaN(ms)` check also sends `0` to "N/A" because `0` is
falsy.  `Math.round` on an integer model is the identity; `Math.floor` of the
positive quotients is integer division. -/
def formatDuration (ms : Option Int) : String :=
  match ms with
  | none => "N/A"
  | some m =>
    if m = 0 then "N/A"
    else if m < 1000 then toString m ++ "ms"
    else if m < 60000 then
      if m % 1000 = 0 then toString (m / 1000) ++ "s"
      else secondsOneDecimal m ++ "s"
    else
      let minutes := m / 60000
      let seconds := (m % 60000 + 500) / 1000
      if seconds > 0 then toString minutes ++ "m " ++ toString seconds ++ "s"
      else toString minutes ++ "m"

/-- A run step as stored in `runData.steps` after `fetchRunData`'s transform:
`started_at`/`completed_at` in milliseconds, `completed_at` nullable, plus the
`type` string used for the label.  Other JSON fields of a step are not read by
the timeline builder and are omitted. -/
structure Step where
  started_at : Int
  completed_at : Option Int
  type : Option String
deriving DecidableEq, Repr

/-- The processed run object (`processedData` in `fetchRunData`): resolved
millisecond bounds and the step list.  Identifier and status fields are not
read by the timeline builder and are omitted. -/
structure RunData where
  started_at : Int
  completed_at : Int
  steps : List Step
deriving DecidableEq, Repr

/-- One timeline entry pushed by `prepareTimelineData`: offsets from the run
start, a duration, the step index (`-1` for gaps), flags and the preformatted
duration label.  Gap objects in the source omit `isSelected`, which reads back
as falsy, modelled as `false`. -/
structure Segment where
  name : String
  actualStart : Int
  duration : Int
  actualEnd : Int
  index : Int
  isSelected : Bool
  isGap : Bool
  durationLabel : String
deriving DecidableEq, Repr

/-- `step.completed_at ? step.completed_at - startTime : (endTime - startTime)`
(index.jsx line 229): the step's end offset, falling back to the run's end
offset when `completed_at` is falsy (null, or the falsy millisecond value 0). -/
def stepActualEnd (startTime endTime : Int) (step : Step) : Int :=
  match step.completed_at with
  | some v => if v = 0 then endTime - startTime else v - startTime
  | none => endTime - startTime

/-- The step segment pushed at index.jsx lines 232-241. -/
def mkStepSegment (startTime endTime : Int) (sel : Option Int) (i : Nat) (step : Step) : Segment :=
  let actualStart := step.started_at - startTime
  let actualEnd := stepActualEnd startTime endTime step
  let duration := actualEnd - actualStart
  { name := toString (i + 1) ++ ". " ++ jsTypeName step.type
    actualStart := actualStart
    duration := duration
    actualEnd := actualEnd
    index := (i : Int)
    isSelected := sel = some (i : Int)
    isGap := false
    durationLabel := formatDuration (some duration) }

/-- The initial gap pushed at index.jsx lines 211-222 when the first step
starts after the run does. -/
def mkInitialGap (startTime : Int) (firstStep : Step) : Segment :=
  let gapDuration := firstStep.started_at - startTime
  { name := "<unknown>"
    actualStart := 0
    duration := gapDuration
    actualEnd := gapDuration
    index := -1
    isSelected := false
    isGap := true
    durationLabel := formatDuration (some gapDuration) }

/-- The between-step gap pushed at index.jsx lines 245-259; note that a `null`
`completed_at` of the preceding step coerces to `0` in both the comparison and
the subtraction. -/
def mkBetweenGap (startTime : Int) (step nextStep : Step) : Segment :=
  let gapStart := jsNum step.completed_at - startTime
  let gapEnd := nextStep.started_at - startTime
  let gapDuration := gapEnd - gapStart
  { name := "<unknown>"
    actualStart := gapStart
    duration := gapDuration
    actualEnd := gapEnd
    index := -1
    isSelected := false
    isGap := true
    durationLabel := formatDuration (some gapDuration) }

/-- The trailing gap pushed at index.jsx lines 264-277, with the same `null`
coercion of the last step's `completed_at`. -/
def mkTrailingGap (startTime endTime : Int) (lastStep : Step) : Segment :=
  let gapStart := jsNum lastStep.completed_at - startTime
  let gapDuration := endTime - jsNum lastStep.completed_at
  { name := "<unknown>"
    actualStart := gapStart
    duration := gapDuration
    actualEnd := endTime - startTime
    index := -1
    isSelected := false
    isGap := true
    durationLabel := formatDuration (some gapDuration) }

/-- The `runData.steps.forEach` body of `prepareTimelineData` (index.jsx lines
226-260): for each step, push its segment, then push a gap when the step's
(coerced) end precedes the next step's start.  `i` is the running `forEach`
index. -/
def stepsSegs (startTime endTime : Int) (sel : Option Int) : Nat → List Step → List Segment
  | _, [] => []
  | i, step :: rest =>
    mkStepSegment startTime endTime sel i step ::
      ((match rest.head? with
        | some nextStep =>
          if jsNum step.completed_at < nextStep.started_at then
            [mkBetweenGap startTime step nextStep]
          else []
        | none => []) ++ stepsSegs startTime endTime sel (i + 1) rest)

/-- `prepareTimelineData` (index.jsx lines 201-280): empty step list yields
`[]`; otherwise the optional initial gap, the per-step segments with
between-step gaps, and the optional trailing gap, in push order. -/
def prepareTimelineData (rd : RunData) (sel : Option Int) : List Segment :=
  match rd.steps with
  | [] => []
  | firstStep :: _ =>
    (if firstStep.started_at > rd.started_at then [mkInitialGap rd.started_at firstStep] else []) ++
    stepsSegs rd.started_at rd.completed_at sel 0 rd.steps ++
    (match rd.steps.getLast? with
     | some lastStep =>
       if jsNum lastStep.completed_at < rd.completed_at then
         [mkTrailingGap rd.started_at rd.completed_at lastStep]
       else []
     | none => [])

/-- A raw step record as returned by the steps API (`stepsData.data` entries):
`created_at` in integer epoch seconds (always present), `completed_at` nullable
epoch seconds. -/
structure RawStep where
  created_at : Int
  completed_at : Option Int
  type : Option String
deriving DecidableEq, Repr

/-- The per-step transform of `fetchRunData` (index.jsx lines 412-417):
`started_at := created_at * 1000`, and
`completed_at := step.completed_at ? step.completed_at * 1000 : null`, so a
falsy raw value (null, or the epoch value 0) becomes `null`. -/
def transformStep (s : RawStep) : Step :=
  { started_at := s.created_at * 1000
    completed_at :=
      match s.completed_at with
      | some v => if v = 0 then none else some (v * 1000)
      | none => none
    type := s.type }

/-- The run-end normalization of `fetchRunData` (index.jsx line 428):
`runInfo.completed_at ? runInfo.completed_at * 1000 : Date.now()`, with `now`
the current millisecond time supplied explicitly. -/
def resolveRunEnd (completed_at : Option Int) (now : Int) : Int :=
  match completed_at with
  | some v => if v = 0 then now else v * 1000
  | none => now

/-- The component state touched by `fetchRunData`, `scrollToStep` and the
render pass: the three required text inputs and the `useState` cells
(index.jsx lines 179-188).  `debugInfo` is opaque for our purposes. -/
structure AppState where
  runId : String
  threadId : String
  apiKey : String
  loading : Bool
  error : Option String
  debugInfo : Option String
  runData : Option RunData
  selectedStepIndex : Option Int
deriving DecidableEq, Repr

/-- The validation error message set at index.jsx line 284. -/
def requiredMsg : String := "Run ID, Thread ID, and API Key are required"

/-- The synchronous prefix of `fetchRunData` up to the first network call
(index.jsx lines 283-290): if a required input is missing (empty string is
the falsy case), set the validation error and return; otherwise set
`loading`, clear `error` and `debugInfo`, and proceed.  The second component
records whether a network request is issued. -/
def fetchBegin (s : AppState) : AppState × Bool :=
  if s.runId = "" ∨ s.threadId = "" ∨ s.apiKey = "" then
    ({ s with error := some requiredMsg }, false)
  else
    ({ s with loading := true, error := none, debugInfo := none }, true)

/-- `scrollToStep` (index.jsx lines 441-449): set the selection to `index`
unconditionally, then issue a scroll request when a list-item ref exists for
that index.  `refs` models `stepRefs.current`; the second component is the
scroll request target, if any. -/
def scrollToStep (refs : Int → Bool) (index : Int) (s : AppState) : AppState × Option Int :=
  ({ s with selectedStepIndex := some index },
   if refs index then some index else none)

/-- The bar click handler of `WaterfallTimeline` (index.jsx lines 122-124):
`if (!d.isGap) onStepClick(d.index)`, where `onStepClick` is `scrollToStep`.
A gap click changes nothing and issues no scroll request. -/
def handleBarClick (refs : Int → Bool) (seg : Segment) (s : AppState) : AppState × Option Int :=
  if seg.isGap then (s, none) else scrollToStep refs seg.index s

/-- Modelled from the spec: the cursor of the timeline algorithm in spec
section 4.2 — starting at 0, after each step it becomes
`max(cursor, rel_end)` where `rel_end` is the step's end offset from the run
start, using the total duration when the step's end is unresolved.  Stated
here only for comparison with the source's `prepareTimelineData`, which keeps
no such cursor. -/
def specCursor (startTime endTime : Int) (steps : List Step) : Int :=
  steps.foldl
    (fun c st =>
      max c (match st.completed_at with
             | some v => v - startTime
             | none => endTime - startTime))
    0

/-- The gap-emission condition actually implemented by `prepareTimelineData`:
a gap stands immediately before step 0's segment when the step starts after
the run (index.jsx line 211), and immediately before step `j+1`'s segment when
the coerced end of step `j` precedes step `j+1`'s start (index.jsx line 245). -/
def gapBeforeCond (startTime : Int) (steps : List Step) (j : Nat) : Prop :=
  if j = 0 then
    match steps.head? with
    | some firstStep => startTime < firstStep.started_at
    | none => False
  else
    match steps[j - 1]?, steps[j]? with
    | some prev, some cur => jsNum prev.completed_at < cur.started_at
    | _, _ => False

/-- The spec's worked scenario: a run spanning 0-10000 ms with two resolved
steps. -/
def rdScenario : RunData :=
  ⟨0, 10000, [⟨0, some 3000, some "a"⟩, ⟨5000, some 8000, some "b"⟩]⟩

/-- A run with no steps. -/
def rdEmpty : RunData := ⟨0, 10000, []⟩

/-- A run whose single step has an unresolved (`null`) end. -/
def rdNullEnd : RunData := ⟨100, 110, [⟨100, none, some "a"⟩]⟩

/-- A sorted step list in which the second step is contained in the first and
the third starts after the second ends but before the first ends. -/
def rdOverlap : RunData :=
  ⟨0, 60, [⟨0, some 50, some "a"⟩, ⟨10, some 20, some "b"⟩, ⟨30, some 40, some "c"⟩]⟩

/-- A state with all three required inputs present and an active selection. -/
def sampleState : AppState :=
  ⟨"run_1", "thread_1", "sk-key", false, none, none, none, some 2⟩

/-- Every member of the `forEach` output is either a step segment for some
index or a between-step gap guarded by the emission condition of index.jsx
line 245. -/
theorem mem_stepsSegs {startTime endTime : Int} {sel : Option Int} {steps : List Step} :
    ∀ {i0 : Nat} {seg : Segment}, seg ∈ stepsSegs startTime endTime sel i0 steps →
      (∃ i step, seg = mkStepSegment startTime endTime sel i step) ∨
      (∃ prev next, jsNum prev.completed_at < next.started_at ∧
        seg = mkBetweenGap startTime prev next) := by
  induction steps with
  | nil => intro i0 seg h; simp [stepsSegs] at h
  | cons step rest ih =>
    intro i0 seg h
    simp only [stepsSegs, List.mem_cons, List.mem_append] at h
    rcases h with h | h | h
    · exact Or.inl ⟨i0, step, h⟩
    · cases hr : rest.head? with
      | none => rw [hr] at h; simp at h
      | some nextStep =>
        rw [hr] at h
        dsimp only at h
        by_cases hc : jsNum step.completed_at < nextStep.started_at
        · rw [if_pos hc] at h
          simp only [List.mem_singleton] at h
          exact Or.inr ⟨step, nextStep, hc, h⟩
        · rw [if_neg hc] at h; simp at h
    · exact ih h

/-- Every gap segment produced by `prepareTimelineData` has strictly positive
duration and carries the sentinel index `-1`. -/
theorem gap_mem_prepare {rd : RunData} {sel : Option Int} {seg : Segment}
    (h : seg ∈ prepareTimelineData rd sel) (hg : seg.isGap = true) :
    0 < seg.duration ∧ seg.index = -1 := by
  unfold prepareTimelineData at h
  cases hsteps : rd.steps with
  | nil => rw [hsteps] at h; simp at h
  | cons firstStep rest =>
    rw [hsteps] at h
    simp only [List.append_assoc, List.mem_append] at h
    rcases h with h | h | h
    · by_cases hc : firstStep.started_at > rd.started_at
      · rw [if_pos hc] at h
        simp only [List.mem_singleton] at h
        subst h
        refine ⟨?_, rfl⟩
        simp only [mkInitialGap]
        omega
      · rw [if_neg hc] at h; simp at h
    · rcases mem_stepsSegs h with ⟨i, step, rfl⟩ | ⟨prev, next, hc, rfl⟩
      · simp [mkStepSegment] at hg
      · refine ⟨?_, rfl⟩
        simp only [mkBetweenGap]
        omega
    · cases hl : (firstStep :: rest).getLast? with
      | none => rw [hl] at h; simp at h
      | some lastStep =>
        rw [hl] at h
        dsimp only at h
        by_cases hc : jsNum lastStep.completed_at < rd.completed_at
        · rw [if_pos hc] at h
          simp only [List.mem_singleton] at h
          subst h
          refine ⟨?_, rfl⟩
          simp only [mkTrailingGap]
          omega
        · rw [if_neg hc] at h; simp at h

/-- C3: on the spec's worked scenario (run spanning 0-10000 with steps a at
0-3000 and b at 5000-8000) the builder returns exactly the four segments
step a, gap 3000-5000, step b, gap 8000-10000, in order; and on a run with
zero steps it returns the empty list. -/
theorem C3_scenario_segments :
    prepareTimelineData rdScenario none =
      [{ name := "1. a", actualStart := 0, duration := 3000, actualEnd := 3000,
         index := 0, isSelected := false, isGap := false, durationLabel := "3s" },
       { name := "<unknown>", actualStart := 3000, duration := 2000, actualEnd := 5000,
         index := -1, isSelected := false, isGap := true, durationLabel := "2s" },
       { name := "2. b", actualStart := 5000, duration := 3000, actualEnd := 8000,
         index := 1, isSelected := false, isGap := false, durationLabel := "3s" },
       { name := "<unknown>", actualStart := 8000, duration := 2000, actualEnd := 10000,
         index := -1, isSelected := false, isGap := true, durationLabel := "2s" }] ∧
    prepareTimelineData rdEmpty none = [] := by
  constructor <;> decide

/-- C4: no input run or step list — overlapping, unresolved ends included —
makes `prepareTimelineData` emit a gap segment of zero or negative duration. -/
theorem C4_no_degenerate_gap (rd : RunData) (sel : Option Int) (seg : Segment)
    (h : seg ∈ prepareTimelineData rd sel) (hg : seg.isGap = true) :
    0 < seg.duration :=
  (gap_mem_prepare h hg).1

/-- C4 witness: the gap of the worked scenario is in the output and its
duration is positive. -/
theorem C4_no_degenerate_gap_witness :
    ({ name := "<unknown>", actualStart := 3000, duration := 2000, actualEnd := 5000,
       index := -1, isSelected := false, isGap := true, durationLabel := "2s" } : Segment)
      ∈ prepareTimelineData rdScenario none ∧
    (0 : Int) <
      ({ name := "<unknown>", actualStart := 3000, duration := 2000, actualEnd := 5000,
         index := -1, isSelected := false, isGap := true, durationLabel := "2s" } : Segment).duration :=
  ⟨by decide, C4_no_degenerate_gap rdScenario none _ (by decide) (by decide)⟩

/-- C1: at a run spanning 100-110 ms whose single step has an unresolved
(`null`) end, the builder emits a trailing gap whose start offset is `-100`
(the step's `null` end coerces to `0` in the trailing-gap check and
subtraction), so the produced sequence is neither sorted by start offset nor
contiguous, although the step's segment itself resolves its end to the run
end. -/
theorem C1_null_end_breaks_invariants :
    prepareTimelineData rdNullEnd none =
      [{ name := "1. a", actualStart := 0, duration := 10, actualEnd := 10,
         index := 0, isSelected := false, isGap := false, durationLabel := "10ms" },
       { name := "<unknown>", actualStart := -100, duration := 110, actualEnd := 10,
         index := -1, isSelected := false, isGap := true, durationLabel := "110ms" }] ∧
    ¬ List.Sorted (· ≤ ·) ((prepareTimelineData rdNullEnd none).map Segment.actualStart) ∧
    ¬ (((prepareTimelineData rdNullEnd none).map Segment.actualEnd)[0]? =
       ((prepareTimelineData rdNullEnd none).map Segment.actualStart)[1]?) := by
  refine ⟨by decide, by decide, by decide⟩

/-- C2 counterexample: on `rdOverlap` the spec cursor after the first two
steps is 50 and the third step's relative start 30 does not exceed it, yet
the builder emits a gap segment immediately before the third step's segment
— the claimed cursor characterization of gap emission is false. -/
theorem C2_cursor_counterexample :
    prepareTimelineData rdOverlap none =
      [{ name := "1. a", actualStart := 0, duration := 50, actualEnd := 50,
         index := 0, isSelected := false, isGap := false, durationLabel := "50ms" },
       { name := "2. b", actualStart := 10, duration := 10, actualEnd := 20,
         index := 1, isSelected := false, isGap := false, durationLabel := "10ms" },
       { name := "<unknown>", actualStart := 20, duration := 10, actualEnd := 30,
         index := -1, isSelected := false, isGap := true, durationLabel := "10ms" },
       { name := "3. c", actualStart := 30, duration := 10, actualEnd := 40,
         index := 2, isSelected := false, isGap := false, durationLabel := "10ms" },
       { name := "<unknown>", actualStart := 40, duration := 20, actualEnd := 60,
         index := -1, isSelected := false, isGap := true, durationLabel := "20ms" }] ∧
    specCursor 0 60 [⟨0, some 50, some "a"⟩, ⟨10, some 20, some "b"⟩] = 50 ∧
    ((prepareTimelineData rdOverlap none)[2]?).map Segment.isGap = some true ∧
    ((prepareTimelineData rdOverlap none)[3]?).map Segment.index = some 2 ∧
    ¬ ((30 : Int) > 50) := by
  refine ⟨by decide, by decide, by decide, by decide, by decide⟩

/-- C5 counterexample: the formatter maps 0 to "N/A", not to "0ms", because
the leading `!ms` truthiness check treats 0 as missing. -/
theorem C5_zero_counterexample :
    formatDuration (some 0) = "N/A" ∧ formatDuration (some 0) ≠ "0ms" := by
  refine ⟨by decide, by decide⟩

/-- C5 (amended): null/NaN and 0 map to "N/A"; every ms with 0 < ms < 1000
renders as the integer followed by "ms"; every whole second in [1000, 60000)
renders with no decimal point; every non-whole value there renders with
exactly one decimal digit; and the five sample values render as the spec
lists them. -/
theorem C5_duration_format :
    formatDuration none = "N/A" ∧
    formatDuration (some 0) = "N/A" ∧
    (∀ m : Int, 0 < m → m < 1000 → formatDuration (some m) = toString m ++ "ms") ∧
    (∀ m : Int, 1000 ≤ m → m < 60000 → m % 1000 = 0 →
      formatDuration (some m) = toString (m / 1000) ++ "s") ∧
    (∀ m : Int, 1000 ≤ m → m < 60000 → m % 1000 ≠ 0 →
      ∃ k d : Int, 0 ≤ d ∧ d < 10 ∧
        formatDuration (some m) = toString k ++ "." ++ toString d ++ "s") ∧
    formatDuration (some 999) = "999ms" ∧
    formatDuration (some 1000) = "1s" ∧
    formatDuration (some 1500) = "1.5s" ∧
    formatDuration (some 60000) = "1m" ∧
    formatDuration (some 90000) = "1m 30s" := by
  refine ⟨by decide, by decide, ?_, ?_, ?_, by decide, by decide, by decide, by decide, by decide⟩
  · intro m h0 h1
    have hm0 : ¬ m = 0 := by omega
    simp only [formatDuration, if_neg hm0, if_pos h1]
  · intro m h0 h1 h2
    have hm0 : ¬ m = 0 := by omega
    have hlt : ¬ m < 1000 := by omega
    simp only [formatDuration, if_neg hm0, if_neg hlt, if_pos h1, if_pos h2]
  · intro m h0 h1 h2
    have hm0 : ¬ m = 0 := by omega
    have hlt : ¬ m < 1000 := by omega
    refine ⟨(m + 50) / 100 / 10, (m + 50) / 100 % 10, ?_, ?_, ?_⟩
    · omega
    · omega
    · simp only [formatDuration, if_neg hm0, if_neg hlt, if_pos h1, if_neg h2,
        secondsOneDecimal]

/-- C5 witness: the range clauses of the formatting theorem instantiated at
245 ms, 2000 ms and 2500 ms. -/
theorem C5_duration_format_witness :
    ((0 : Int) < 245 ∧ formatDuration (some 245) = toString (245 : Int) ++ "ms") ∧
    formatDuration (some 2000) = toString ((2000 : Int) / 1000) ++ "s" ∧
    (∃ k d : Int, 0 ≤ d ∧ d < 10 ∧
      formatDuration (some 2500) = toString k ++ "." ++ toString d ++ "s") :=
  ⟨⟨by decide, C5_duration_format.2.2.1 245 (by decide) (by decide)⟩,
   C5_duration_format.2.2.2.1 2000 (by decide) (by decide) (by decide),
   C5_duration_format.2.2.2.2.1 2500 (by decide) (by decide) (by decide)⟩

/-- C10: every negative millisecond value falls into the `ms < 1000` branch,
which has no lower bound, and renders as the (negative) integer followed by
"ms". -/
theorem C10_negative_ms (m : Int) (h : m < 0) :
    formatDuration (some m) = toString m ++ "ms" := by
  have hm0 : ¬ m = 0 := by omega
  have h1 : m < 1000 := by omega
  simp only [formatDuration, if_neg hm0, if_pos h1]

/-- C10 witness: -500 renders as "-500ms". -/
theorem C10_negative_ms_witness :
    (-500 : Int) < 0 ∧ formatDuration (some (-500)) = toString (-500 : Int) ++ "ms" ∧
    formatDuration (some (-500)) = "-500ms" :=
  ⟨by decide, C10_negative_ms (-500) (by decide), by decide⟩

/-- C6 counterexample: the raw epoch value 0 is falsy in JavaScript, so the
run-end normalization returns the fallback instead of 0 * 1000. -/
theorem C6_zero_epoch_counterexample :
    resolveRunEnd (some 0) 777 = 777 ∧ (777 : Int) ≠ 0 * 1000 := by
  refine ⟨by decide, by decide⟩

/-- C6 (amended): every nonzero raw integer epoch-seconds value normalizes to
that value times 1000; a null (or the falsy value 0) run end resolves to the
supplied current time; a step's start is its `created_at` times 1000; a
step's null end is kept null by the transform and resolved to the run's end
offset when the timeline is built. -/
theorem C6_normalization :
    (∀ v : Int, v ≠ 0 → ∀ now : Int, resolveRunEnd (some v) now = v * 1000) ∧
    (∀ now : Int, resolveRunEnd none now = now) ∧
    (∀ s : RawStep, (transformStep s).started_at = s.created_at * 1000) ∧
    (∀ s : RawStep, ∀ v : Int, s.completed_at = some v → v ≠ 0 →
      (transformStep s).completed_at = some (v * 1000)) ∧
    (∀ s : RawStep, s.completed_at = none → (transformStep s).completed_at = none) ∧
    (∀ startTime endTime : Int, ∀ step : Step, step.completed_at = none →
      stepActualEnd startTime endTime step = endTime - startTime) := by
  refine ⟨?_, ?_, ?_, ?_, ?_, ?_⟩
  · intro v hv now
    simp only [resolveRunEnd, if_neg hv]
  · intro now; rfl
  · intro s; rfl
  · intro s v hv hv0
    simp only [transformStep, hv, if_neg hv0]
  · intro s hv
    simp only [transformStep, hv]
  · intro startTime endTime step hc
    simp only [stepActualEnd, hc]

/-- C6 witness: the nonzero clauses at 5 and 8 epoch seconds and the
null-step-end resolution at run bounds 100-110. -/
theorem C6_normalization_witness :
    resolveRunEnd (some 5) 777 = 5 * 1000 ∧
    (transformStep ⟨5, some 8, some "a"⟩).completed_at = some ((8 : Int) * 1000) ∧
    stepActualEnd 100 110 ⟨100, none, some "a"⟩ = 110 - 100 :=
  ⟨C6_normalization.1 5 (by decide) 777,
   C6_normalization.2.2.2.1 ⟨5, some 8, some "a"⟩ 8 (by decide) (by decide),
   C6_normalization.2.2.2.2.2 100 110 ⟨100, none, some "a"⟩ (by decide)⟩

/-- C7 counterexample: with all required inputs present and step 2 selected,
beginning a new fetch leaves the selection at `some 2` — it is not cleared to
the no-selection state. -/
theorem C7_fetch_keeps_selection_counterexample :
    ((fetchBegin sampleState).1).selectedStepIndex = some 2 ∧
    (some 2 : Option Int) ≠ none := by
  refine ⟨by decide, by decide⟩

/-- C7 (amended): the selected index survives any recomputation of the
segment sequence (`prepareTimelineData` is a pure function that only reads
the selection) and it also survives the beginning of a new fetch, on both the
validation-failure and the proceed branch: nothing in `fetchRunData` writes
it. -/
theorem C7_selection_persistence (s : AppState) :
    ((fetchBegin s).1).selectedStepIndex = s.selectedStepIndex := by
  unfold fetchBegin
  split <;> rfl

/-- C8: `scrollToStep` unconditionally replaces the selection with its
argument and issues a scroll request whenever a list-item ref exists at that
index; the timeline click handler ignores gap segments entirely, leaving the
state untouched and issuing no request; and every gap segment the builder
produces carries the sentinel index -1. -/
theorem C8_select_and_gap_click :
    (∀ refs : Int → Bool, ∀ idx : Int, ∀ s : AppState,
      ((scrollToStep refs idx s).1).selectedStepIndex = some idx) ∧
    (∀ refs : Int → Bool, ∀ idx : Int, ∀ s : AppState, refs idx = true →
      (scrollToStep refs idx s).2 = some idx) ∧
    (∀ refs : Int → Bool, ∀ seg : Segment, ∀ s : AppState, seg.isGap = true →
      handleBarClick refs seg s = (s, none)) ∧
    (∀ rd : RunData, ∀ sel : Option Int, ∀ seg : Segment,
      seg ∈ prepareTimelineData rd sel → seg.isGap = true → seg.index = -1) := by
  refine ⟨fun _ _ _ => rfl, ?_, ?_, fun _ _ _ hm hg => (gap_mem_prepare hm hg).2⟩
  · intro refs idx s h
    simp only [scrollToStep, if_pos h]
  · intro refs seg s h
    simp only [handleBarClick, if_pos h]

/-- C8 witness: selecting index 1 with a ref present, and clicking the worked
scenario's first gap segment. -/
theorem C8_select_and_gap_click_witness :
    ((scrollToStep (fun i => decide (i = 1)) 1 sampleState).1).selectedStepIndex = some 1 ∧
    (scrollToStep (fun i => decide (i = 1)) 1 sampleState).2 = some 1 ∧
    handleBarClick (fun i => decide (i = 1))
      { name := "<unknown>", actualStart := 3000, duration := 2000, actualEnd := 5000,
        index := -1, isSelected := false, isGap := true, durationLabel := "2s" }
      sampleState = (sampleState, none) ∧
    ({ name := "<unknown>", actualStart := 3000, duration := 2000, actualEnd := 5000,
       index := -1, isSelected := false, isGap := true, durationLabel := "2s" } : Segment).index = -1 :=
  ⟨C8_select_and_gap_click.1 (fun i => decide (i = 1)) 1 sampleState,
   C8_select_and_gap_click.2.1 (fun i => decide (i = 1)) 1 sampleState (by decide),
   C8_select_and_gap_click.2.2.1 (fun i => decide (i = 1)) _ sampleState (by decide),
   C8_select_and_gap_click.2.2.2 rdScenario none _ (by decide) (by decide)⟩

/-- C9: when a required input is missing, the fetch sets exactly the
validation error message and never reaches the network; loading, debug info,
run data and the selection are all left unchanged. -/
theorem C9_validation_short_circuit (s : AppState)
    (h : s.runId = "" ∨ s.threadId = "" ∨ s.apiKey = "") :
    fetchBegin s = ({ s with error := some requiredMsg }, false) ∧
    ((fetchBegin s).1).runData = s.runData ∧
    ((fetchBegin s).1).loading = s.loading ∧
    ((fetchBegin s).1).debugInfo = s.debugInfo ∧
    ((fetchBegin s).1).selectedStepIndex = s.selectedStepIndex := by
  have h1 : fetchBegin s = ({ s with error := some requiredMsg }, false) := by
    unfold fetchBegin
    rw [if_pos h]
  refine ⟨h1, ?_, ?_, ?_, ?_⟩ <;> rw [h1]

/-- C9 witness: a state with an empty run id is rejected with the validation
message and no other change. -/
theorem C9_validation_short_circuit_witness :
    fetchBegin ⟨"", "thread_1", "sk-key", false, none, none, none, some 1⟩ =
      ({ (⟨"", "thread_1", "sk-key", false, none, none, none, some 1⟩ : AppState) with
          error := some requiredMsg }, false) ∧
    ((fetchBegin ⟨"", "thread_1", "sk-key", false, none, none, none, some 1⟩).1).runData =
      (⟨"", "thread_1", "sk-key", false, none, none, none, some 1⟩ : AppState).runData ∧
    ((fetchBegin ⟨"", "thread_1", "sk-key", false, none, none, none, some 1⟩).1).loading =
      (⟨"", "thread_1", "sk-key", false, none, none, none, some 1⟩ : AppState).loading ∧
    ((fetchBegin ⟨"", "thread_1", "sk-key", false, none, none, none, some 1⟩).1).debugInfo =
      (⟨"", "thread_1", "sk-key", false, none, none, none, some 1⟩ : AppState).debugInfo ∧
    ((fetchBegin ⟨"", "thread_1", "sk-key", false, none, none, none, some 1⟩).1).selectedStepIndex =
      (⟨"", "thread_1", "sk-key", false, none, none, none, some 1⟩ : AppState).selectedStepIndex :=
  C9_validation_short_circuit ⟨"", "thread_1", "sk-key", false, none, none, none, some 1⟩
    (Or.inl rfl)
theorem stepsSegs_step_pos (startTime endTime : Int) (sel : Option Int) :
    ∀ (steps : List Step) (i0 j : Nat) (st : Step), steps[j]? = some st →
      ∃ p : Nat,
        (stepsSegs startTime endTime sel i0 steps)[p]? =
          some (mkStepSegment startTime endTime sel (i0 + j) st) ∧
        (j = 0 → p = 0) ∧
        (∀ j' : Nat, j = j' + 1 →
          ∃ prev : Step, steps[j']? = some prev ∧ 0 < p ∧
            (stepsSegs startTime endTime sel i0 steps)[p - 1]? =
              some (if jsNum prev.completed_at < st.started_at
                    then mkBetweenGap startTime prev st
                    else mkStepSegment startTime endTime sel (i0 + j') prev)) := by
  intro steps
  induction steps with
  | nil => intro i0 j st h; simp at h
  | cons step rest ih =>
    intro i0 j st h
    cases j with
    | zero =>
      refine ⟨0, ?_, fun _ => rfl, fun j' hj => by omega⟩
      simp only [List.getElem?_cons_zero] at h
      rw [stepsSegs]
      simp only [List.getElem?_cons_zero, Nat.add_zero]
      rw [Option.some_inj] at h
      rw [h]
    | succ j' =>
      simp only [List.getElem?_cons_succ] at h
      obtain ⟨pr, hpr1, hpr2, hpr3⟩ := ih (i0 + 1) j' st h
      set gapList :=
        (match rest.head? with
         | some nextStep =>
           if jsNum step.completed_at < nextStep.started_at then
             [mkBetweenGap startTime step nextStep]
           else []
         | none => []) with hgl
      have hexp : stepsSegs startTime endTime sel i0 (step :: rest) =
          mkStepSegment startTime endTime sel i0 step ::
            (gapList ++ stepsSegs startTime endTime sel (i0 + 1) rest) := rfl
      refine ⟨gapList.length + pr + 1, ?_, by omega, ?_⟩
      · rw [hexp, List.getElem?_cons_succ,
          List.getElem?_append_right (by omega : gapList.length ≤ gapList.length + pr)]
        have hidx : gapList.length + pr - gapList.length = pr := by omega
        rw [hidx]
        have harith : i0 + (j' + 1) = i0 + 1 + j' := by omega
        rw [harith]
        exact hpr1
      · intro jj hj
        have hjj : jj = j' := by omega
        subst hjj
        cases jj with
        | zero =>
          -- prev is `step` itself; rest begins with st
          have hp0 : pr = 0 := hpr2 rfl
          have hrest : rest.head? = some st := by
            cases rest with
            | nil => simp at h
            | cons r rs =>
              simp only [List.getElem?_cons_zero] at h
              simp [h]
          refine ⟨step, List.getElem?_cons_zero, by omega, ?_⟩
          by_cases hc : jsNum step.completed_at < st.started_at
          · have hgl1 : gapList = [mkBetweenGap startTime step st] := by
              rw [hgl, hrest]
              dsimp only
              rw [if_pos hc]
            rw [if_pos hc, hexp, hgl1]
            have : [mkBetweenGap startTime step st].length + pr + 1 - 1 = 1 := by
              simp [hp0]
            rw [this, List.getElem?_cons_succ,
              List.getElem?_append_left (by simp)]
            exact List.getElem?_cons_zero
          · have hgl0 : gapList = [] := by
              rw [hgl, hrest]
              dsimp only
              rw [if_neg hc]
            rw [if_neg hc, hexp, hgl0]
            have : ([] : List Segment).length + pr + 1 - 1 = 0 := by
              simp [hp0]
            rw [this]
            simp only [List.nil_append, List.getElem?_cons_zero, Nat.add_zero]
        | succ jk =>
          obtain ⟨prev, hprev, hppos, hpred⟩ := hpr3 jk rfl
          refine ⟨prev, by rw [List.getElem?_cons_succ]; exact hprev, by omega, ?_⟩
          rw [hexp]
          have hlen : gapList.length + pr + 1 - 1 = (gapList.length + (pr - 1)) + 1 := by omega
          rw [hlen, List.getElem?_cons_succ,
            List.getElem?_append_right (by omega : gapList.length ≤ gapList.length + (pr - 1))]
          have hidx : gapList.length + (pr - 1) - gapList.length = pr - 1 := by omega
          rw [hidx]
          have harith : i0 + (jk + 1) = i0 + 1 + jk := by omega
          rw [harith]
          exact hpred

theorem prepareTimelineData_cons (rd : RunData) (sel : Option Int) (firstStep : Step)
    (rest : List Step) (hsteps : rd.steps = firstStep :: rest) :
    prepareTimelineData rd sel =
      (if firstStep.started_at > rd.started_at then [mkInitialGap rd.started_at firstStep] else []) ++
      stepsSegs rd.started_at rd.completed_at sel 0 (firstStep :: rest) ++
      (match (firstStep :: rest).getLast? with
       | some lastStep =>
         if jsNum lastStep.completed_at < rd.completed_at then
           [mkTrailingGap rd.started_at rd.completed_at lastStep]
         else []
       | none => []) := by
  unfold prepareTimelineData
  rw [hsteps]

theorem C2_gap_before_step (rd : RunData) (sel : Option Int) (j : Nat) (st : Step)
    (h : rd.steps[j]? = some st) :
    ∃ p : Nat,
      (prepareTimelineData rd sel)[p]? =
        some (mkStepSegment rd.started_at rd.completed_at sel j st) ∧
      ((∃ g : Segment, 0 < p ∧ (prepareTimelineData rd sel)[p - 1]? = some g ∧ g.isGap = true)
        ↔ gapBeforeCond rd.started_at rd.steps j) := by
  cases hsteps : rd.steps with
  | nil => rw [hsteps] at h; simp at h
  | cons firstStep rest =>
    rw [hsteps] at h
    obtain ⟨pb, hb1, hb2, hb3⟩ :=
      stepsSegs_step_pos rd.started_at rd.completed_at sel (firstStep :: rest) 0 j st h
    rw [Nat.zero_add] at hb1
    set ini := (if firstStep.started_at > rd.started_at
                then [mkInitialGap rd.started_at firstStep] else []) with hini
    set body := stepsSegs rd.started_at rd.completed_at sel 0 (firstStep :: rest) with hbody
    set tra := (match (firstStep :: rest).getLast? with
                | some lastStep =>
                  if jsNum lastStep.completed_at < rd.completed_at then
                    [mkTrailingGap rd.started_at rd.completed_at lastStep]
                  else []
                | none => []) with htra
    have hprep : prepareTimelineData rd sel = ini ++ (body ++ tra) := by
      rw [prepareTimelineData_cons rd sel firstStep rest hsteps, List.append_assoc]
    have hpblt : pb < body.length := (List.getElem?_eq_some.mp hb1).1
    refine ⟨ini.length + pb, ?_, ?_⟩
    · rw [hprep, List.getElem?_append_right (by omega : ini.length ≤ ini.length + pb)]
      have hidx : ini.length + pb - ini.length = pb := by omega
      rw [hidx, List.getElem?_append_left hpblt]
      exact hb1
    · cases j with
      | zero =>
        have hpb0 : pb = 0 := hb2 rfl
        have hcond : gapBeforeCond rd.started_at (firstStep :: rest) 0 =
            (rd.started_at < firstStep.started_at) := by
          unfold gapBeforeCond
          rw [if_pos rfl]
          rfl
        by_cases hc : firstStep.started_at > rd.started_at
        · have hini1 : ini = [mkInitialGap rd.started_at firstStep] := by
            rw [hini, if_pos hc]
          constructor
          · intro _
            rw [hcond]
            exact hc
          · intro _
            refine ⟨mkInitialGap rd.started_at firstStep, ?_, ?_, rfl⟩
            · rw [hini1, hpb0]
              simp
            · have hp1 : ini.length + pb - 1 = 0 := by rw [hini1, hpb0]; rfl
              rw [hprep, hp1,
                List.getElem?_append_left (by rw [hini1]; simp : 0 < ini.length), hini1]
              exact List.getElem?_cons_zero
        · have hini0 : ini = [] := by rw [hini, if_neg hc]
          constructor
          · rintro ⟨g, hg0, _, _⟩
            exfalso
            rw [hini0, hpb0] at hg0
            simp at hg0
          · intro hcnd
            exfalso
            rw [hcond] at hcnd
            exact hc hcnd
      | succ j' =>
        obtain ⟨prev, hprev, hpos, hpred⟩ := hb3 j' rfl
        have hcond : gapBeforeCond rd.started_at (firstStep :: rest) (j' + 1) =
            (jsNum prev.completed_at < st.started_at) := by
          unfold gapBeforeCond
          rw [if_neg (by omega : ¬ (j' + 1 = 0)), Nat.add_sub_cancel, hprev, h]
        have hPredTop : (prepareTimelineData rd sel)[ini.length + pb - 1]? =
            some (if jsNum prev.completed_at < st.started_at
                  then mkBetweenGap rd.started_at prev st
                  else mkStepSegment rd.started_at rd.completed_at sel (0 + j') prev) := by
          rw [hprep, (by omega : ini.length + pb - 1 = ini.length + (pb - 1)),
            List.getElem?_append_right (by omega : ini.length ≤ ini.length + (pb - 1)),
            (by omega : ini.length + (pb - 1) - ini.length = pb - 1),
            List.getElem?_append_left (by omega : pb - 1 < body.length)]
          exact hpred
        constructor
        · rintro ⟨g, hg0, hgp, hggap⟩
          rw [hPredTop] at hgp
          rw [Option.some_inj] at hgp
          by_cases hc : jsNum prev.completed_at < st.started_at
          · rw [hcond]
            exact hc
          · exfalso
            rw [if_neg hc] at hgp
            rw [← hgp] at hggap
            simp [mkStepSegment] at hggap
        · intro hcnd
          rw [hcond] at hcnd
          refine ⟨mkBetweenGap rd.started_at prev st, by omega, ?_, rfl⟩
          rw [hPredTop, if_pos hcnd]

/-- C2 witness: the characterization instantiated at the third step of
`rdOverlap`, whose predecessor-based gap condition holds. -/
theorem C2_gap_before_step_witness :
    ∃ p : Nat,
      (prepareTimelineData rdOverlap none)[p]? =
        some (mkStepSegment rdOverlap.started_at rdOverlap.completed_at none 2
          ⟨30, some 40, some "c"⟩) ∧
      ((∃ g : Segment, 0 < p ∧ (prepareTimelineData rdOverlap none)[p - 1]? = some g ∧
          g.isGap = true)
        ↔ gapBeforeCond rdOverlap.started_at rdOverlap.steps 2) :=
  C2_gap_before_step rdOverlap none 2 ⟨30, some 40, some "c"⟩ (by decide)
